import Mathlib

/-!
Verification of the TarotTeller repository against its specification.

The file shallowly embeds the parts of the code that the claims are about:

* `tarot_teller/tarot.py` — the card catalog, the three-card spread and its
  text rendering (`TarotCard`, `SpreadCard`, `TarotReading`,
  `draw_three_card_spread`, `_MAJOR_ARCANA`, `_join_keywords`);
* `tarot_teller/native_american.py` — the totem range table and lookup
  (`_TOTEM_RANGES`, `_in_range`, `totem_for`);
* `tarot_teller/numerology.py` — digit reduction (`_reduce_number`);
* a model of the deck engine (`tarotteller/deck.py` and
  `tarotteller/spreads.py` are referenced by the packaging, the GUI and the
  test-suite but are not present in the source tree, so the deck is modelled
  from the specification, as marked on each such definition).

Python strings become Lean `String`; `str.join` is embedded as `joinWith`;
the pseudo-random generator of a draw is abstracted into the choice it makes
(a list of distinct indices for `random.sample`), or modelled as an explicit
seeded linear-congruential stream for the spec-modelled deck.
-/

/-- Model of Python `sep.join(parts)`: concatenates the parts with the
separator between consecutive parts. -/
def joinWith (sep : String) : List String → String
  | [] => ""
  | [x] => x
  | x :: xs => x ++ sep ++ joinWith sep xs

/-- From `tarot_teller/tarot.py`: `TarotCard` dataclass
(fields `name`, `keywords`, `upright`). -/
structure TarotCard where
  name : String
  keywords : List String
  upright : String
deriving DecidableEq, Repr

/-- From `tarot_teller/tarot.py`: `_join_keywords`. -/
def _join_keywords : List String → String
  | [] => ""
  | [k] => k
  | ks => joinWith ", " ks.dropLast ++ ", and " ++ ks.getLastD ""

/-- From `tarot_teller/tarot.py`: `SpreadCard` dataclass
(fields `position`, `card`). -/
structure SpreadCard where
  position : String
  card : TarotCard
deriving DecidableEq, Repr

/-- From `tarot_teller/tarot.py`: `SpreadCard.narrative`. -/
def SpreadCard.narrative (e : SpreadCard) : String :=
  e.position ++ ": " ++ e.card.name ++ " (" ++ _join_keywords e.card.keywords
    ++ "). " ++ e.card.upright

/-- From `tarot_teller/tarot.py`: `TarotReading` dataclass (field `spread`). -/
structure TarotReading where
  spread : List SpreadCard
deriving DecidableEq, Repr

/-- From `tarot_teller/tarot.py`: `TarotReading.summary`, which joins the
per-position narratives with a newline. -/
def TarotReading.summary (r : TarotReading) : String :=
  joinWith "\n" (r.spread.map SpreadCard.narrative)

/-- From `tarot_teller/tarot.py`: the module-level `_MAJOR_ARCANA` tuple,
the fixed catalog that `draw_three_card_spread` samples from. -/
def _MAJOR_ARCANA : List TarotCard := [
  ⟨"The Fool", ["beginnings", "spontaneity", "faith"], "A leap into the unknown invites sacred trust."⟩,
  ⟨"The Magician", ["manifestation", "skill", "willpower"], "You already possess the tools required to shape this moment."⟩,
  ⟨"The High Priestess", ["intuition", "mystery", "inner voice"], "Listen for the whispers beneath surface logic."⟩,
  ⟨"The Empress", ["fertility", "sensuality", "abundance"], "Nurture your ideas the way you would a flourishing garden."⟩,
  ⟨"The Emperor", ["structure", "authority", "stability"], "Disciplined action turns inspiration into legacy."⟩,
  ⟨"The Hierophant", ["tradition", "wisdom", "mentorship"], "Ritual and shared wisdom anchor your next steps."⟩,
  ⟨"The Lovers", ["alignment", "connection", "values"], "Choose what mirrors your heart\u0027s deepest truth."⟩,
  ⟨"The Chariot", ["determination", "focus", "momentum"], "Harness contrasting forces to drive forward with grace."⟩,
  ⟨"Strength", ["courage", "compassion", "resilience"], "Gentle strength outshines brute force now."⟩,
  ⟨"The Hermit", ["solitude", "searching", "inner guidance"], "Illuminate the path by honoring reflective pauses."⟩,
  ⟨"Wheel of Fortune", ["cycles", "destiny", "turning point"], "Change is the only constant—pivot with intention."⟩,
  ⟨"Justice", ["equilibrium", "truth", "accountability"], "Seek balance by aligning actions with integrity."⟩,
  ⟨"The Hanged One", ["surrender", "perspective", "pause"], "Stillness births the revelation you seek."⟩,
  ⟨"Death", ["release", "transformation", "rebirth"], "Letting go clears space for extraordinary renewal."⟩,
  ⟨"Temperance", ["alchemy", "moderation", "purpose"], "Blend disparate pieces of your life into a cohesive whole."⟩,
  ⟨"The Devil", ["shadow", "attachment", "awakening"], "Liberation arrives when you name the chains you carry."⟩,
  ⟨"The Tower", ["revelation", "upheaval", "liberation"], "Radical truth dismantles what was never stable."⟩,
  ⟨"The Star", ["hope", "healing", "inspiration"], "Your vulnerability is a lighthouse for others."⟩,
  ⟨"The Moon", ["dreams", "intuition", "subconscious"], "Honor cyclical emotions—they are sacred navigation tools."⟩,
  ⟨"The Sun", ["vitality", "joy", "radiance"], "Your authenticity is magnetic—let it shine freely."⟩,
  ⟨"Judgement", ["awakening", "forgiveness", "purpose"], "Answer the call that won\u0027t stop echoing in your soul."⟩,
  ⟨"The World", ["completion", "integration", "wholeness"], "Celebrate how far you\u0027ve traveled and claim the next horizon."⟩]

/-- The choice made by `rng.sample(_MAJOR_ARCANA, 3)`: the sampled elements
are the catalog entries at the chosen (pairwise-distinct) indices, in
selection order. -/
def sampleMajor (idxs : List (Fin 22)) : List TarotCard :=
  idxs.map fun i => _MAJOR_ARCANA.get i

/-- From `tarot_teller/tarot.py`: `draw_three_card_spread`.  The random
source is abstracted into the index choice `idxs` that its `sample` call
makes; the function zips the positions with the sampled cards. -/
def draw_three_card_spread (idxs : List (Fin 22)) : TarotReading :=
  ⟨List.zipWith (fun p c => SpreadCard.mk p c) ["Past", "Present", "Future"]
    (sampleMajor idxs)⟩

/-- From `tarot_teller/native_american.py`: `_TotemRange` named tuple.  The
source's second field is called `end`, a Lean keyword, so it is `stop`
here. -/
structure _TotemRange where
  start : Nat × Nat
  stop : Nat × Nat
  totem : String
  element : String
  clan : String
  keywords : List String

/-- Python tuple comparison `a <= b` on (month, day) pairs is
lexicographic. -/
def tupleLe (a b : Nat × Nat) : Bool :=
  a.1 < b.1 || (a.1 = b.1 && a.2 ≤ b.2)

/-- From `tarot_teller/native_american.py`: the `_TOTEM_RANGES` table. -/
def _TOTEM_RANGES : List _TotemRange := [
  ⟨(1, 20), (2, 18), "Otter", "Air", "Butterfly Clan", ["inventive", "supportive", "compassionate"]⟩,
  ⟨(2, 19), (3, 20), "Wolf", "Water", "Frog Clan", ["romantic", "intuitive", "protective"]⟩,
  ⟨(3, 21), (4, 19), "Falcon", "Fire", "Hawk Clan", ["sharp-eyed", "strategic", "decisive"]⟩,
  ⟨(4, 20), (5, 20), "Beaver", "Earth", "Turtle Clan", ["resourceful", "grounded", "collaborative"]⟩,
  ⟨(5, 21), (6, 20), "Deer", "Air", "Butterfly Clan", ["playful", "inspiring", "quick-witted"]⟩,
  ⟨(6, 21), (7, 21), "Woodpecker", "Water", "Frog Clan", ["nurturing", "rhythmic", "devoted"]⟩,
  ⟨(7, 22), (8, 21), "Salmon", "Fire", "Hawk Clan", ["driven", "generous", "creative"]⟩,
  ⟨(8, 22), (9, 21), "Bear", "Earth", "Turtle Clan", ["practical", "patient", "healing"]⟩,
  ⟨(9, 22), (10, 22), "Raven", "Air", "Butterfly Clan", ["diplomatic", "visionary", "transformative"]⟩,
  ⟨(10, 23), (11, 21), "Snake", "Water", "Frog Clan", ["mystical", "adaptable", "catalytic"]⟩,
  ⟨(11, 22), (12, 21), "Owl", "Fire", "Hawk Clan", ["perceptive", "truth-seeking", "philosophical"]⟩,
  ⟨(12, 22), (1, 19), "Goose", "Earth", "Turtle Clan", ["ambitious", "enduring", "community-minded"]⟩]

/-- From `tarot_teller/native_american.py`: `_in_range`, with the
wrap-around branch for a range that crosses the new year. -/
def _in_range (value start stop : Nat × Nat) : Bool :=
  if tupleLe start stop then tupleLe start value && tupleLe value stop
  else tupleLe start value || tupleLe value stop

/-- From `tarot_teller/native_american.py`: `_join_words`. -/
def _join_words : List String → String
  | [] => ""
  | [w] => w
  | ws => joinWith ", " ws.dropLast ++ ", and " ++ ws.getLastD ""

/-- From `tarot_teller/native_american.py`: `_craft_message` (the source
file stores the em-dash as the three mojibake characters reproduced
here). -/
def _craft_message (tr : _TotemRange) : String :=
  "The " ++ tr.totem ++ " walks with you as part of the " ++ tr.clan ++ ". "
    ++ "This medicine wheel position emphasizes " ++ tr.element.toLower
    ++ " element wisdomâ€”"
    ++ "expect your " ++ _join_words tr.keywords
    ++ " nature to open doors for deeper belonging and reciprocity."

/-- From `tarot_teller/native_american.py`: `TotemInsight` dataclass. -/
structure TotemInsight where
  totem : String
  element : String
  clan : String
  keywords : List String
  message : String

/-- From `tarot_teller/native_american.py`: `totem_for`.  The `for` loop
with early `return` is the first match in table order; the final
`raise ValueError` branch is `none`. -/
def totem_for (month day : Nat) : Option TotemInsight :=
  (_TOTEM_RANGES.find? fun tr => _in_range (month, day) tr.start tr.stop).map
    fun tr => ⟨tr.totem, tr.element, tr.clan, tr.keywords, _craft_message tr⟩

/-- Decimal digit sum: model of `sum(int(digit) for digit in str(value))`
from `tarot_teller/numerology.py`. -/
def digitSum (n : Nat) : Nat :=
  if h : n = 0 then 0
  else n % 10 + digitSum (n / 10)
decreasing_by exact Nat.div_lt_self (Nat.pos_of_ne_zero h) (by omega)

/-- From `tarot_teller/numerology.py`: `_reduce_number` — the while loop
`while value not in {11, 22} and value >= 10: value = digitSum value`. -/
def _reduce_number (value : Nat) : Nat :=
  if h : value ≠ 11 ∧ value ≠ 22 ∧ 10 ≤ value then _reduce_number (digitSum value)
  else value
termination_by value
decreasing_by
  have hle : ∀ m : Nat, digitSum m ≤ m := by
    intro m
    induction m using Nat.strong_induction_on with
    | _ m ih =>
      rw [digitSum]
      split
      · omega
      · rename_i hm
        have hlt : m / 10 < m := Nat.div_lt_self (Nat.pos_of_ne_zero hm) (by omega)
        have hx := ih (m / 10) hlt
        have hmod : m % 10 + 10 * (m / 10) = m := Nat.mod_add_div m 10
        omega
  rw [digitSum]
  split
  · omega
  · have hx := hle (value / 10)
    have hmod : value % 10 + 10 * (value / 10) = value := Nat.mod_add_div value 10
    have hr : value % 10 < 10 := Nat.mod_lt _ (by omega)
    omega

/-- The reduction loop with an explicit iteration budget: `none` means the
budget ran out before the loop exited. -/
def reduceFuel : Nat → Nat → Option Nat
  | 0, _ => none
  | f + 1, v =>
    if v ≠ 11 ∧ v ≠ 22 ∧ 10 ≤ v then reduceFuel f (digitSum v) else some v

/-- Modelled from the spec: the arcana classification of a catalog card.
The spread/deck engine (`tarotteller/deck.py`, `tarotteller/spreads.py`) is
referenced by the package, the GUI and the tests but is absent from the
source tree, so this data model follows the specification text. -/
inductive Arcana
  | major
  | minor
deriving DecidableEq, Repr

/-- Modelled from the spec: the four minor-arcana suits. -/
inductive Suit
  | wands
  | cups
  | swords
  | pentacles
deriving DecidableEq, Repr

/-- Modelled from the spec: a full-deck catalog card (`name`, `arcana`,
optional `suit` and `rank` for minor arcana, upright/reversed meaning text
and keyword tags), for the missing `tarotteller/deck.py`. -/
structure CatalogCard where
  name : String
  arcana : Arcana
  suit : Option Suit
  rank : Option String
  uprightMeaning : String
  reversedMeaning : String
  keywords : List String
deriving DecidableEq, Repr

/-- Display title of a suit, used to build unique minor-arcana names. -/
def suitTitle : Suit → String
  | Suit.wands => "Wands"
  | Suit.cups => "Cups"
  | Suit.swords => "Swords"
  | Suit.pentacles => "Pentacles"

/-- Modelled from the spec: the 14 ranks of each minor-arcana suit. -/
def minorRanks : List String :=
  ["Ace", "Two", "Three", "Four", "Five", "Six", "Seven", "Eight", "Nine",
    "Ten", "Page", "Knight", "Queen", "King"]

/-- Modelled from the spec: the 22 major-arcana entries of the missing full
catalog.  Names, upright text and keywords reuse the repository's
major-arcana table; the reversed text (static data, out of the spec's
scope) is a placeholder derived from the upright text. -/
def majorCatalog : List CatalogCard :=
  _MAJOR_ARCANA.map fun c =>
    ⟨c.name, Arcana.major, none, none, c.upright, "Reversed: " ++ c.upright,
      c.keywords⟩

/-- Modelled from the spec: the 56 minor-arcana entries (14 ranks for each
of 4 suits) of the missing full catalog. -/
def minorCatalog : List CatalogCard :=
  ([Suit.wands, Suit.cups, Suit.swords, Suit.pentacles].map fun s =>
    minorRanks.map fun r =>
      ⟨r ++ " of " ++ suitTitle s, Arcana.minor, some s, some r,
        "Upright meaning of " ++ r ++ " of " ++ suitTitle s,
        "Reversed meaning of " ++ r ++ " of " ++ suitTitle s, []⟩).flatten

/-- Modelled from the spec: the full 78-card catalog in canonical order. -/
def fullCatalog : List CatalogCard := majorCatalog ++ minorCatalog

/-- Modelled from the spec: the deck-owned seedable pseudo-random source.
The spec fixes only that it is deterministic in the seed and owned by one
deck, so a linear-congruential step stands in for Python's generator. -/
def lcgNext (s : Nat) : Nat := (1103515245 * s + 12345) % 2147483648

/-- Modelled from the spec: the orientation of a drawn card (named
`CardOrientation` because Mathlib already has an `Orientation`). -/
inductive CardOrientation
  | upright
  | reversed
deriving DecidableEq, Repr

/-- Modelled from the spec: a drawn card pairing a catalog card with its
orientation. -/
structure DrawnCard where
  card : CatalogCard
  orientation : CardOrientation
deriving DecidableEq, Repr

/-- Modelled from the spec: the two failure conditions of `draw`. -/
inductive DrawError
  | insufficientCards
  | invalidCount
deriving DecidableEq, Repr

/-- Modelled from the spec: the deck state — the remaining cards (order
matters) and the owned random-source state (`tarotteller/deck.py` is
missing from the source tree). -/
structure TarotDeck where
  remaining : List CatalogCard
  rng : Nat
deriving DecidableEq, Repr

/-- Modelled from the spec: a fresh deck holds the full 78-card catalog. -/
def TarotDeck.new : TarotDeck := ⟨fullCatalog, 0⟩

/-- Modelled from the spec: `seed(value)` re-initializes the deck-owned
random source deterministically from the value. -/
def TarotDeck.seed (d : TarotDeck) (v : Nat) : TarotDeck := { d with rng := v }

/-- Modelled from the spec: the uniform shuffle of `reset` — repeatedly
select a random position of the not-yet-placed cards and emit that card.
The fuel argument equals the list length at the top call. -/
def shuffleAux : Nat → List CatalogCard → Nat → List CatalogCard × Nat
  | 0, _, r => ([], r)
  | _ + 1, [], r => ([], r)
  | fuel + 1, x :: xs, r =>
    let next := lcgNext r
    let rest := (x :: xs).eraseIdx (next % (x :: xs).length)
    ((x :: xs).get ⟨next % (x :: xs).length, Nat.mod_lt _ (Nat.succ_pos _)⟩
        :: (shuffleAux fuel rest next).1,
      (shuffleAux fuel rest next).2)

/-- Modelled from the spec: `reset(shuffle)` repopulates `remaining` with
all 78 catalog cards in canonical order, permuting them via the internal
random source when `shuffle` is true. -/
def TarotDeck.reset (d : TarotDeck) (shuffle : Bool) : TarotDeck :=
  if shuffle then
    ⟨(shuffleAux fullCatalog.length fullCatalog d.rng).1,
      (shuffleAux fullCatalog.length fullCatalog d.rng).2⟩
  else ⟨fullCatalog, d.rng⟩

/-- Modelled from the spec: orientation assignment of a successful draw —
when reversals are allowed each card's orientation is decided from the
internal random source in card order, otherwise every card is upright. -/
def assignOrientations (allowReversed : Bool) :
    List CatalogCard → Nat → List DrawnCard × Nat
  | [], r => ([], r)
  | c :: cs, r =>
    if allowReversed then
      (⟨c, if lcgNext r % 2 = 0 then CardOrientation.upright else CardOrientation.reversed⟩
          :: (assignOrientations allowReversed cs (lcgNext r)).1,
        (assignOrientations allowReversed cs (lcgNext r)).2)
    else
      (⟨c, CardOrientation.upright⟩ :: (assignOrientations allowReversed cs r).1,
        (assignOrientations allowReversed cs r).2)

/-- Modelled from the spec: `draw(n, allow_reversed)` — fails with
InsufficientCards when `n` exceeds the remaining size, with InvalidCount
when `n <= 0`, and otherwise removes the first `n` remaining cards and
assigns orientations; a failed call returns the deck unchanged. -/
def TarotDeck.draw (d : TarotDeck) (n : Int) (allowReversed : Bool := true) :
    Except DrawError (List DrawnCard) × TarotDeck :=
  if (d.remaining.length : Int) < n then (Except.error DrawError.insufficientCards, d)
  else if n ≤ 0 then (Except.error DrawError.invalidCount, d)
  else
    (Except.ok (assignOrientations allowReversed (d.remaining.take n.toNat) d.rng).1,
      ⟨d.remaining.drop n.toNat,
        (assignOrientations allowReversed (d.remaining.take n.toNat) d.rng).2⟩)

/-- A sequence of draws against one deck without an intervening reset:
`none` as soon as one draw fails, otherwise the concatenated drawn cards
and the final deck. -/
def drawSeq : TarotDeck → List Int → Option (List DrawnCard × TarotDeck)
  | d, [] => some ([], d)
  | d, n :: ns =>
    match d.draw n true with
    | (Except.ok cs, d2) =>
      match drawSeq d2 ns with
      | some (rest, dEnd) => some (cs ++ rest, dEnd)
      | none => none
    | (Except.error _, _) => none

/-- The (card name, orientation) pairs of a draw result (empty on
failure). -/
def drawnPairs : Except DrawError (List DrawnCard) → List (String × CardOrientation)
  | Except.ok cs => cs.map fun dc => (dc.card.name, dc.orientation)
  | Except.error _ => []

/-- The number of drawn cards of a successful draw result, `none` on
failure. -/
def okLength : Except DrawError (List DrawnCard) → Option Nat
  | Except.ok cs => some cs.length
  | Except.error _ => none


/-- C1 counterexample: the fixed catalog that draws are taken from does not
have 78 entries — it has 22. -/
theorem c1_catalog_not_78 : ¬ (_MAJOR_ARCANA.length = 78) := by decide

/-- C1 (amended): the fixed card catalog that draws are taken from contains
exactly 22 cards with pairwise-distinct names; all of them are major arcana
(the catalog is the major-arcana table) and no minor-arcana cards exist in
it. -/
theorem c1_catalog_22_unique :
    _MAJOR_ARCANA.length = 22 ∧ (_MAJOR_ARCANA.map TarotCard.name).Nodup := by
  constructor
  · decide
  · decide

/-- Distinct catalog indices yield distinct card names: the 22 catalog names
are pairwise distinct, checked by evaluation. -/
theorem majorArcana_name_inj :
    ∀ i j : Fin 22,
      (_MAJOR_ARCANA.get i).name = (_MAJOR_ARCANA.get j).name → i = j := by
  decide

/-- C2: for every random source (abstracted into the distinct sample indices
its `sample` call picks), the three-card spread has exactly 3 entries, its
position titles are exactly "Past", "Present", "Future" in that order, and
the three drawn cards have pairwise-distinct names. -/
theorem c2_three_card_spread_shape (idxs : List (Fin 22))
    (h3 : idxs.length = 3) (hnd : idxs.Nodup) :
    (draw_three_card_spread idxs).spread.length = 3 ∧
    (draw_three_card_spread idxs).spread.map SpreadCard.position
      = ["Past", "Present", "Future"] ∧
    ((draw_three_card_spread idxs).spread.map fun e => e.card.name).Nodup := by
  obtain ⟨a, b, c, rfl⟩ := List.length_eq_three.mp h3
  refine ⟨rfl, rfl, ?_⟩
  have hab : a ≠ b := fun h => by subst h; simp at hnd
  have hac : a ≠ c := fun h => by subst h; simp at hnd
  have hbc : b ≠ c := fun h => by subst h; simp at hnd
  have key : ∀ i j : Fin 22, i ≠ j →
      (_MAJOR_ARCANA.get i).name ≠ (_MAJOR_ARCANA.get j).name :=
    fun i j hij h => hij (majorArcana_name_inj i j h)
  show List.Nodup [(_MAJOR_ARCANA.get a).name, (_MAJOR_ARCANA.get b).name,
    (_MAJOR_ARCANA.get c).name]
  simp only [List.nodup_cons, List.mem_cons, List.mem_singleton,
    List.not_mem_nil, List.nodup_nil, and_true, not_or, or_false]
  exact ⟨⟨key a b hab, key a c hac⟩, key b c hbc, not_false⟩

/-- C2 witness at the concrete sample [0, 1, 2]. -/
theorem c2_three_card_spread_shape_witness :
    ([0, 1, 2] : List (Fin 22)).length = 3 ∧
    ([0, 1, 2] : List (Fin 22)).Nodup ∧
    ((draw_three_card_spread [0, 1, 2]).spread.length = 3 ∧
      (draw_three_card_spread [0, 1, 2]).spread.map SpreadCard.position
        = ["Past", "Present", "Future"] ∧
      ((draw_three_card_spread [0, 1, 2]).spread.map fun e => e.card.name).Nodup) :=
  ⟨rfl, by decide, c2_three_card_spread_shape [0, 1, 2] rfl (by decide)⟩

/-- C8: every card of a three-card spread is one of the 22 fixed
major-arcana catalog entries, and its rendering is built from the upright
meaning only: the narrative is exactly the position, name, keywords and
upright text, and ends in the upright text (a `TarotCard` carries no
orientation or reversed-meaning field, so no reversed rendering exists). -/
theorem c8_major_upright_only (idxs : List (Fin 22)) (h3 : idxs.length = 3) :
    _MAJOR_ARCANA.length = 22 ∧
    ∀ e ∈ (draw_three_card_spread idxs).spread,
      e.card ∈ _MAJOR_ARCANA ∧
      e.narrative = e.position ++ ": " ++ e.card.name ++ " ("
        ++ _join_keywords e.card.keywords ++ "). " ++ e.card.upright ∧
      ∃ s, e.narrative = s ++ e.card.upright := by
  obtain ⟨a, b, c, rfl⟩ := List.length_eq_three.mp h3
  refine ⟨rfl, ?_⟩
  intro e he
  have hmem : e.card ∈ _MAJOR_ARCANA := by
    simp only [draw_three_card_spread, sampleMajor, List.map_cons, List.map_nil,
      List.zipWith_cons_cons, List.zipWith_nil_right, List.mem_cons,
      List.not_mem_nil, or_false] at he
    rcases he with rfl | rfl | rfl
    · exact List.get_mem _MAJOR_ARCANA a.val a.isLt
    · exact List.get_mem _MAJOR_ARCANA b.val b.isLt
    · exact List.get_mem _MAJOR_ARCANA c.val c.isLt
  exact ⟨hmem, rfl, ⟨e.position ++ ": " ++ e.card.name ++ " ("
    ++ _join_keywords e.card.keywords ++ "). ", rfl⟩⟩

/-- C8 witness at the concrete sample [3, 7, 11]. -/
theorem c8_major_upright_only_witness :
    ([3, 7, 11] : List (Fin 22)).length = 3 ∧
    (_MAJOR_ARCANA.length = 22 ∧
      ∀ e ∈ (draw_three_card_spread [3, 7, 11]).spread,
        e.card ∈ _MAJOR_ARCANA ∧
        e.narrative = e.position ++ ": " ++ e.card.name ++ " ("
          ++ _join_keywords e.card.keywords ++ "). " ++ e.card.upright ∧
        ∃ s, e.narrative = s ++ e.card.upright) :=
  ⟨rfl, c8_major_upright_only [3, 7, 11] rfl⟩

/-- If the separator and every part avoid a character, so does the join. -/
theorem joinWith_not_mem (sep : String) (ch : Char) (hsep : ch ∉ sep.data) :
    ∀ l : List String, (∀ s ∈ l, ch ∉ s.data) → ch ∉ (joinWith sep l).data := by
  intro l
  induction l with
  | nil => intro _; simp [joinWith]
  | cons x xs ih =>
    cases xs with
    | nil => intro h; simpa [joinWith] using h x (by simp)
    | cons y ys =>
      intro h hmem
      simp only [joinWith, String.data_append, List.append_assoc,
        List.mem_append] at hmem
      rcases hmem with hx | hs | hr
      · exact h x (by simp) hx
      · exact hsep hs
      · exact ih (fun s hs => h s (by simp [hs])) hr

/-- If every keyword avoids a character that also does not occur in the two
separator literals, the keyword phrase avoids it. -/
theorem join_keywords_no_newline (ks : List String)
    (h : ∀ k ∈ ks, ('\n') ∉ k.data) : ('\n') ∉ (_join_keywords ks).data := by
  match ks with
  | [] => simp [_join_keywords]
  | [k] => simpa [_join_keywords] using h k (by simp)
  | k1 :: k2 :: rest =>
    intro hmem
    simp only [_join_keywords, String.data_append, List.append_assoc,
      List.mem_append] at hmem
    rcases hmem with hj | hs | hl
    · refine joinWith_not_mem ", " ('\n') (by decide) _ ?_ hj
      intro s hs
      exact h s ((List.dropLast_sublist (k1 :: k2 :: rest)).subset hs)
    · exact absurd hs (by decide)
    · refine h ((k1 :: k2 :: rest).getLastD "") ?_ hl
      rw [List.getLastD_cons]
      exact List.getLastD_mem_cons _ _

/-- A narrative line built from newline-free fields is newline-free. -/
theorem narrative_no_newline (e : SpreadCard)
    (hp : ('\n') ∉ e.position.data) (hn : ('\n') ∉ e.card.name.data)
    (hk : ∀ k ∈ e.card.keywords, ('\n') ∉ k.data)
    (hu : ('\n') ∉ e.card.upright.data) :
    ('\n') ∉ (SpreadCard.narrative e).data := by
  intro hmem
  simp only [SpreadCard.narrative, String.data_append, List.append_assoc,
    List.mem_append] at hmem
  rcases hmem with h | h | h | h | h | h | h
  · exact hp h
  · exact absurd h (by decide)
  · exact hn h
  · exact absurd h (by decide)
  · exact join_keywords_no_newline e.card.keywords hk h
  · exact absurd h (by decide)
  · exact hu h

/-- C7: the text rendering of a reading is a pure function of the reading
value (`summary` is a Lean function of `r` alone, so two renderings of the
same reading coincide definitionally); for every reading whose fields are
newline-free — as all catalog-drawn readings are — the rendering joins one
newline-free line per position, and each line carries the position title
(as a prefix), the card name and the card's upright meaning text. -/
theorem c7_summary_rendering (r : TarotReading)
    (h : ∀ e ∈ r.spread, ('\n') ∉ e.position.data ∧ ('\n') ∉ e.card.name.data ∧
      (∀ k ∈ e.card.keywords, ('\n') ∉ k.data) ∧ ('\n') ∉ e.card.upright.data) :
    r.summary = joinWith "\n" (r.spread.map SpreadCard.narrative) ∧
    (r.spread.map SpreadCard.narrative).length = r.spread.length ∧
    ∀ e ∈ r.spread, ('\n') ∉ (SpreadCard.narrative e).data ∧
      (∃ t, SpreadCard.narrative e = e.position ++ t) ∧
      (∃ s t, SpreadCard.narrative e = s ++ (e.card.name ++ t)) ∧
      (∃ s, SpreadCard.narrative e = s ++ e.card.upright) := by
  refine ⟨rfl, by simp, ?_⟩
  intro e he
  obtain ⟨hp, hn, hk, hu⟩ := h e he
  refine ⟨narrative_no_newline e hp hn hk hu, ?_, ?_, ?_⟩
  · exact ⟨": " ++ e.card.name ++ " (" ++ _join_keywords e.card.keywords
      ++ "). " ++ e.card.upright,
      by simp only [SpreadCard.narrative, String.append_assoc]⟩
  · exact ⟨e.position ++ ": ", " (" ++ _join_keywords e.card.keywords
      ++ "). " ++ e.card.upright,
      by simp only [SpreadCard.narrative, String.append_assoc]⟩
  · exact ⟨e.position ++ ": " ++ e.card.name ++ " ("
      ++ _join_keywords e.card.keywords ++ "). ", rfl⟩

/-- C7 witness at a concrete catalog reading. -/
theorem c7_summary_rendering_witness :
    (∀ e ∈ (draw_three_card_spread [0, 1, 2]).spread,
      ('\n') ∉ e.position.data ∧ ('\n') ∉ e.card.name.data ∧
      (∀ k ∈ e.card.keywords, ('\n') ∉ k.data) ∧
      ('\n') ∉ e.card.upright.data) ∧
    ((draw_three_card_spread [0, 1, 2]).summary
        = joinWith "\n" ((draw_three_card_spread [0, 1, 2]).spread.map
          SpreadCard.narrative) ∧
      ((draw_three_card_spread [0, 1, 2]).spread.map
          SpreadCard.narrative).length
        = (draw_three_card_spread [0, 1, 2]).spread.length ∧
      ∀ e ∈ (draw_three_card_spread [0, 1, 2]).spread,
        ('\n') ∉ (SpreadCard.narrative e).data ∧
        (∃ t, SpreadCard.narrative e = e.position ++ t) ∧
        (∃ s t, SpreadCard.narrative e = s ++ (e.card.name ++ t)) ∧
        (∃ s, SpreadCard.narrative e = s ++ e.card.upright)) :=
  ⟨by decide, c7_summary_rendering (draw_three_card_spread [0, 1, 2])
    (by decide)⟩

/-- Totality of the range table over the whole (month, day) grid, checked
by evaluation. -/
theorem totem_total_aux :
    ∀ m < 13, ∀ d < 32, 1 ≤ m → 1 ≤ d → (totem_for m d).isSome := by
  decide

/-- C9: the totem lookup is total over calendar dates: every (month, day)
pair of a valid date matches some entry of the range table (the wrap-around
Goose range closes the year), so the no-range-found error branch — `none`
in this embedding — is unreachable. -/
theorem c9_totem_total (month day : Nat) (hm1 : 1 ≤ month) (hm2 : month ≤ 12)
    (hd1 : 1 ≤ day) (hd2 : day ≤ 31) : (totem_for month day).isSome :=
  totem_total_aux month (by omega) day (by omega) hm1 hd1

/-- C9 witness at December 25 (inside the wrap-around Goose range). -/
theorem c9_totem_total_witness :
    1 ≤ 12 ∧ 12 ≤ 12 ∧ 1 ≤ 25 ∧ 25 ≤ 31 ∧ (totem_for 12 25).isSome :=
  ⟨by decide, by decide, by decide, by decide,
    c9_totem_total 12 25 (by decide) (by decide) (by decide) (by decide)⟩

/-- The digit sum never exceeds its argument. -/
theorem digitSum_le (n : Nat) : digitSum n ≤ n := by
  induction n using Nat.strong_induction_on with
  | _ n ih =>
    rw [digitSum]
    split
    · omega
    · rename_i h
      have hlt : n / 10 < n := Nat.div_lt_self (Nat.pos_of_ne_zero h) (by omega)
      have hle := ih (n / 10) hlt
      have hmod : n % 10 + 10 * (n / 10) = n := Nat.mod_add_div n 10
      omega

/-- The digit sum of a number that is at least 10 is strictly smaller. -/
theorem digitSum_lt (n : Nat) (h : 10 ≤ n) : digitSum n < n := by
  rw [digitSum]
  split
  · omega
  · have hle := digitSum_le (n / 10)
    have hmod : n % 10 + 10 * (n / 10) = n := Nat.mod_add_div n 10
    have hr : n % 10 < 10 := Nat.mod_lt _ (by omega)
    omega

/-- A budget of one more than the input always suffices: the loop
terminates, reaching the value `_reduce_number` computes. -/
theorem reduceFuel_converges (v : Nat) : ∀ f, v < f →
    reduceFuel f v = some (_reduce_number v) := by
  induction v using Nat.strong_induction_on with
  | _ v ih =>
    intro f hf
    match f, hf with
    | f' + 1, _ =>
      rw [reduceFuel, _reduce_number]
      split
      · rename_i h
        have hlt : digitSum v < v := digitSum_lt v h.2.2
        exact ih (digitSum v) hlt f' (by omega)
      · rfl

/-- The loop result is a single digit or a master number. -/
theorem reduce_number_range (v : Nat) :
    _reduce_number v < 10 ∨ _reduce_number v = 11 ∨ _reduce_number v = 22 := by
  induction v using Nat.strong_induction_on with
  | _ v ih =>
    rw [_reduce_number]
    split
    · rename_i h
      exact ih (digitSum v) (digitSum_lt v h.2.2)
    · rename_i h
      omega

/-- C10: the digit-reduction loop terminates for every non-negative input
(the digit sum of a number that is at least 10 is strictly smaller, and a
fuel budget of the input plus one suffices), and the result is always a
single digit (0–9) or one of the master numbers 11 and 22. -/
theorem c10_reduce_number (v : Nat) :
    (10 ≤ v → digitSum v < v) ∧
    reduceFuel (v + 1) v = some (_reduce_number v) ∧
    (_reduce_number v < 10 ∨ _reduce_number v = 11 ∨ _reduce_number v = 22) :=
  ⟨digitSum_lt v, reduceFuel_converges v (v + 1) (by omega),
    reduce_number_range v⟩

/-- C10 witness at 38 (digit sum 11, a master number). -/
theorem c10_reduce_number_witness :
    digitSum 38 < 38 ∧
    reduceFuel 39 38 = some (_reduce_number 38) ∧
    (_reduce_number 38 < 10 ∨ _reduce_number 38 = 11 ∨ _reduce_number 38 = 22) :=
  ⟨(c10_reduce_number 38).1 (by decide), (c10_reduce_number 38).2.1,
    (c10_reduce_number 38).2.2⟩

/-- The modelled full catalog has exactly 78 cards. -/
theorem fullCatalog_length : fullCatalog.length = 78 := by decide

/-- The modelled full catalog has pairwise-distinct card names. -/
theorem fullCatalog_names_nodup : (fullCatalog.map CatalogCard.name).Nodup := by
  decide

/-- Taking the element at a valid index and erasing that index is a
permutation of the original list. -/
theorem get_cons_eraseIdx_perm {α : Type} [DecidableEq α] (l : List α)
    (i : Nat) (h : i < l.length) : (l.get ⟨i, h⟩ :: l.eraseIdx i).Perm l := by
  have h1 := List.erase_getElem (l := l) (i := i) h
  have h2 := List.perm_cons_erase (a := l.get ⟨i, h⟩) (l := l)
    (List.get_mem l i h)
  rw [List.get_eq_getElem] at h2
  rw [List.get_eq_getElem]
  exact (h2.trans (h1.cons _)).symm

/-- The selection shuffle emits a permutation of its input whenever the
fuel covers the list length. -/
theorem shuffleAux_perm :
    ∀ (fuel : Nat) (l : List CatalogCard) (r : Nat), l.length ≤ fuel →
      ((shuffleAux fuel l r).1).Perm l := by
  intro fuel
  induction fuel with
  | zero =>
    intro l r h
    have hnil : l = [] := List.length_eq_zero.mp (Nat.le_zero.mp h)
    subst hnil
    simp [shuffleAux]
  | succ f ih =>
    intro l r h
    match l with
    | [] => simp [shuffleAux]
    | x :: xs =>
      have hi : lcgNext r % (x :: xs).length < (x :: xs).length :=
        Nat.mod_lt _ (Nat.succ_pos _)
      have hlen1 := List.length_eraseIdx_add_one hi
      have hlen : ((x :: xs).eraseIdx (lcgNext r % (x :: xs).length)).length ≤ f := by
        simp only [List.length_cons] at h hlen1 ⊢
        omega
      simp only [shuffleAux]
      exact ((ih _ (lcgNext r) hlen).cons _).trans
        (get_cons_eraseIdx_perm (x :: xs) _ hi)

/-- Orientation assignment decorates exactly the given cards, in order. -/
theorem assignOrientations_cards (b : Bool) :
    ∀ (cs : List CatalogCard) (r : Nat),
      ((assignOrientations b cs r).1).map DrawnCard.card = cs := by
  intro cs
  induction cs with
  | nil => intro r; rfl
  | cons c cs ih =>
    intro r
    cases b <;> simp [assignOrientations, ih]

/-- Orientation assignment preserves the number of cards. -/
theorem assignOrientations_length (b : Bool) (cs : List CatalogCard) (r : Nat) :
    ((assignOrientations b cs r).1).length = cs.length := by
  have h := congrArg List.length (assignOrientations_cards b cs r)
  simpa using h

/-- Anatomy of a successful draw: the drawn cards are the first `n`
remaining cards, the deck keeps the rest, and the count was in bounds. -/
theorem draw_ok_spec (d : TarotDeck) (n : Int) (b : Bool)
    (cs : List DrawnCard) (d2 : TarotDeck)
    (h : d.draw n b = (Except.ok cs, d2)) :
    cs.map DrawnCard.card = d.remaining.take n.toNat ∧
    d2.remaining = d.remaining.drop n.toNat ∧
    0 < n ∧ n ≤ (d.remaining.length : Int) := by
  rw [TarotDeck.draw] at h
  split at h
  · simp at h
  · split at h
    · simp at h
    · rename_i h1 h2
      rw [Prod.mk.injEq] at h
      obtain ⟨hcs, hd⟩ := h
      have hcs2 : cs = (assignOrientations b (d.remaining.take n.toNat) d.rng).1 := by
        injection hcs with hx
        exact hx.symm
      subst hcs2
      refine ⟨assignOrientations_cards b _ _, ?_, by omega, by omega⟩
      rw [← hd]

/-- Running any successful draw sequence, the names of the drawn cards
followed by the names still remaining are a permutation of the names the
deck started with. -/
theorem drawSeq_perm :
    ∀ (ns : List Int) (d : TarotDeck) (res : List DrawnCard × TarotDeck),
      drawSeq d ns = some res →
      ((res.1.map fun dc => dc.card.name)
          ++ res.2.remaining.map CatalogCard.name).Perm
        (d.remaining.map CatalogCard.name) := by
  intro ns
  induction ns with
  | nil =>
    intro d res h
    rw [drawSeq] at h
    injection h with h
    subst h
    simpa using List.Perm.refl (d.remaining.map CatalogCard.name)
  | cons n ns ih =>
    intro d res h
    rw [drawSeq] at h
    split at h
    · rename_i cs d2 heq
      split at h
      · rename_i pr rest dEnd hrec
        injection h with h
        subst h
        have hd := draw_ok_spec d n true cs d2 heq
        have hperm := ih d2 (rest, dEnd) hrec
        have h1 : cs.map (fun dc => dc.card.name)
            = (d.remaining.take n.toNat).map CatalogCard.name := by
          rw [← hd.1, List.map_map]
          rfl
        simp only [List.map_append, List.append_assoc, h1]
        have h2 : ((rest.map fun dc => dc.card.name)
            ++ dEnd.remaining.map CatalogCard.name).Perm
            ((d.remaining.drop n.toNat).map CatalogCard.name) := by
          rw [← hd.2.1]
          exact hperm
        have h3 := List.Perm.append_left
          ((d.remaining.take n.toNat).map CatalogCard.name) h2
        have h4 : (d.remaining.take n.toNat).map CatalogCard.name
            ++ (d.remaining.drop n.toNat).map CatalogCard.name
            = d.remaining.map CatalogCard.name := by
          rw [← List.map_append, List.take_append_drop]
        rw [h4] at h3
        exact h3
      · exact absurd h (by simp)
    · exact absurd h (by simp)

/-- C3: for every deck (any seed, shuffled or not) and every sequence of
successful draws without an intervening reset, the drawn card names have no
duplicates, and after k total cards have been drawn the remaining pool has
exactly 78 - k cards (each draw removes exactly the drawn cards). -/
theorem c3_draw_without_replacement (s : Nat) (b : Bool) (ns : List Int)
    (res : List DrawnCard × TarotDeck)
    (h : drawSeq ((TarotDeck.new.seed s).reset b) ns = some res) :
    (res.1.map fun dc => dc.card.name).Nodup ∧
    res.1.length + res.2.remaining.length = 78 ∧
    res.2.remaining.length = 78 - res.1.length := by
  have hperm := drawSeq_perm ns _ res h
  have hreset : ((((TarotDeck.new.seed s).reset b).remaining).map
      CatalogCard.name).Perm (fullCatalog.map CatalogCard.name) := by
    cases b with
    | false => exact List.Perm.refl _
    | true =>
      exact List.Perm.map CatalogCard.name
        (shuffleAux_perm fullCatalog.length fullCatalog _ (le_refl _))
  have hall := hperm.trans hreset
  have hnd := hall.nodup_iff.mpr fullCatalog_names_nodup
  have hlen := hall.length_eq
  have hlen78 : (fullCatalog.map CatalogCard.name).length = 78 := by
    simp [fullCatalog_length]
  simp only [List.length_append, List.length_map, hlen78] at hlen
  exact ⟨hnd.of_append_left, by omega, by omega⟩

/-- C3 witness: an unshuffled seeded deck drawing 3 cards once. -/
theorem c3_draw_without_replacement_witness :
    drawSeq ((TarotDeck.new.seed 7).reset false) [3]
      = some ((drawSeq ((TarotDeck.new.seed 7).reset false) [3]).getD
        ([], TarotDeck.new)) ∧
    ((((drawSeq ((TarotDeck.new.seed 7).reset false) [3]).getD
        ([], TarotDeck.new)).1.map fun dc => dc.card.name).Nodup ∧
      ((drawSeq ((TarotDeck.new.seed 7).reset false) [3]).getD
        ([], TarotDeck.new)).1.length
        + ((drawSeq ((TarotDeck.new.seed 7).reset false) [3]).getD
          ([], TarotDeck.new)).2.remaining.length = 78 ∧
      ((drawSeq ((TarotDeck.new.seed 7).reset false) [3]).getD
        ([], TarotDeck.new)).2.remaining.length
        = 78 - ((drawSeq ((TarotDeck.new.seed 7).reset false) [3]).getD
          ([], TarotDeck.new)).1.length) :=
  ⟨rfl, c3_draw_without_replacement 7 false [3] _ rfl⟩

/-- C4: drawing is deterministic in the seed — two independent decks that
are seeded with the same value, reset with shuffle, and then draw the same
count produce identical (card name, orientation) sequences. -/
theorem c4_seed_reproducible (s : Nat) (n : Int) (d1 d2 : TarotDeck)
    (h1 : d1 = (TarotDeck.new.seed s).reset true)
    (h2 : d2 = (TarotDeck.new.seed s).reset true) :
    drawnPairs (d1.draw n true).1 = drawnPairs (d2.draw n true).1 := by
  subst h1
  subst h2
  rfl

/-- C4 witness at seed 7, draw count 3. -/
theorem c4_seed_reproducible_witness :
    ((TarotDeck.new.seed 7).reset true = (TarotDeck.new.seed 7).reset true) ∧
    drawnPairs ((((TarotDeck.new.seed 7).reset true)).draw 3 true).1
      = drawnPairs ((((TarotDeck.new.seed 7).reset true)).draw 3 true).1 :=
  ⟨rfl, c4_seed_reproducible 7 3 _ _ rfl rfl⟩

/-- C5: a draw call that fails (with either error) performs no mutation:
the deck coming out of the failed call is the deck that went in. -/
theorem c5_draw_atomic (d : TarotDeck) (n : Int) (b : Bool) (e : DrawError)
    (h : (d.draw n b).1 = Except.error e) : (d.draw n b).2 = d := by
  by_cases h1 : (d.remaining.length : Int) < n
  · simp [TarotDeck.draw, h1]
  · by_cases h2 : n ≤ 0
    · simp [TarotDeck.draw, h1, h2]
    · exfalso
      simp [TarotDeck.draw, h1, h2] at h

/-- C5 witness: the spec's concrete scenario — a deck holding 3 cards asked
for 5 fails with InsufficientCards and is left untouched. -/
theorem c5_draw_atomic_witness :
    ((TarotDeck.mk (fullCatalog.take 3) 0).draw 5 true).1
      = Except.error DrawError.insufficientCards ∧
    ((TarotDeck.mk (fullCatalog.take 3) 0).draw 5 true).2
      = TarotDeck.mk (fullCatalog.take 3) 0 :=
  ⟨rfl, c5_draw_atomic (TarotDeck.mk (fullCatalog.take 3) 0) 5 true
    DrawError.insufficientCards rfl⟩

/-- C6: a draw of n cards fails with InsufficientCards exactly when n
exceeds the remaining size, fails with InvalidCount exactly when n is not
positive, and otherwise succeeds returning exactly n drawn cards. -/
theorem c6_draw_error_conditions (d : TarotDeck) (n : Int) (b : Bool) :
    ((d.draw n b).1 = Except.error DrawError.insufficientCards
      ↔ (d.remaining.length : Int) < n) ∧
    ((d.draw n b).1 = Except.error DrawError.invalidCount ↔ n ≤ 0) ∧
    okLength (d.draw n b).1
      = if 1 ≤ n ∧ n ≤ (d.remaining.length : Int) then some n.toNat
        else none := by
  by_cases h1 : (d.remaining.length : Int) < n
  · have hno : ¬(1 ≤ n ∧ n ≤ (d.remaining.length : Int)) := by omega
    simp [TarotDeck.draw, h1, okLength, hno]
    omega
  · by_cases h2 : n ≤ 0
    · have hno : ¬(1 ≤ n ∧ n ≤ (d.remaining.length : Int)) := by omega
      simp [TarotDeck.draw, h1, h2, okLength, hno]
    · have hyes : 1 ≤ n ∧ n ≤ (d.remaining.length : Int) := by omega
      simp only [TarotDeck.draw, if_neg h1, if_neg h2, okLength, if_pos hyes,
        assignOrientations_length, List.length_take]
      refine ⟨by simp <;> omega, by simp <;> omega, ?_⟩
      have : n.toNat ≤ d.remaining.length := by omega
      simp [Nat.min_eq_left this]

/-- C6 witness: the conditions instantiated on a fresh full deck asked for
3 cards. -/
theorem c6_draw_error_conditions_witness :
    (((TarotDeck.new.draw 3 true).1 = Except.error DrawError.insufficientCards
        ↔ ((TarotDeck.new.remaining.length : Int) < 3)) ∧
      ((TarotDeck.new.draw 3 true).1 = Except.error DrawError.invalidCount
        ↔ (3 : Int) ≤ 0) ∧
      okLength (TarotDeck.new.draw 3 true).1
        = if 1 ≤ (3 : Int) ∧ (3 : Int) ≤ (TarotDeck.new.remaining.length : Int)
          then some (3 : Int).toNat else none) :=
  c6_draw_error_conditions TarotDeck.new 3 true
